import Mathlib

/-!
Shallow embedding of the goproxy task agent (src/goproxy.go, with the
service/older variants kept in src/unnamed for cross-reference).

The agent polls a task server, runs database tasks locally and posts the
outcome back.  The embedding models:

* `MapStringScan` and its `Update`/`Get` steps (row mapping, goproxy.go:85-123);
* Go's map-by-reference semantics through an explicit `Heap`, which is what
  makes the `response = append(response, rc.Get())` aliasing in
  `processDbTask` observable;
* the per-iteration pipeline `getPendingTask` / `isDbTask` / `processDbTask`
  / `postJsonResponse` / `fck` (goproxy.go:128-268) as a trace semantics:
  each run yields the list of POST attempts to the report endpoint, the
  database open/close counts, and how the goroutine's control path ends
  (`Flow.done`, parked forever on the receiver-less `quit` channel, or a
  panic);
* `main`'s startup validation and the unguarded per-tick goroutine spawn.

Environment inputs (network bodies, database results, POST outcomes) are
packaged in `IterWorld`; machine behaviour is translated from the source,
never from the spec's words.
-/

namespace Goproxy

/-- Task type constants (goproxy.go:61-64). -/
def TASK_TYPE_DB_MYSQL_QUERY : Nat := 1

def TASK_TYPE_DB_MYSQL_EXEC : Nat := 2

/-- A task from the API (goproxy.go:26-30).  Go field `Type` is rendered as
`type` (capitalised `Type` is reserved in Lean); `RawConfig` carries the raw
JSON bytes as a string. -/
structure Task where
  RawConfig : String
  type : Nat
  Payload : String
deriving DecidableEq, Repr

/-- Config for a DB task (goproxy.go:35-38).  Go field `Type` rendered `dtype`. -/
structure DBTaskConfig where
  dtype : String
  Dsn : String
deriving DecidableEq, Repr

/-- A scan destination handed to `rows.Scan`.  `newMapStringScan` only ever
builds `*sql.RawBytes` targets; `other` stands for a destination of any other
type, the case `Update`'s type assertion rejects.  A RawBytes buffer is
`none` when the Go slice is nil. -/
inductive ScanTarget where
  | rawBytes : Option String → ScanTarget
  | other : ScanTarget
deriving DecidableEq, Repr

/-- Whether a scan target is a `*sql.RawBytes`. -/
def ScanTarget.isRB : ScanTarget → Bool
  | rawBytes _ => true
  | other => false

/-- The buffer held by a scan target (`none` for non-RawBytes targets). -/
def bufOf : ScanTarget → Option String
  | ScanTarget.rawBytes b => b
  | ScanTarget.other => none

/-- Go's `string(rb)` on a RawBytes value: a nil slice stringifies to `""`. -/
def rawBytesStr : Option String → String
  | none => ""
  | some v => v

/-- A Go `map[string]string`, rendered as an association list in insertion
order. -/
abbrev RowMap := List (String × String)

/-- Go map assignment `m[k] = v`: replace an existing binding, else append. -/
def mapAssign : RowMap → String → String → RowMap
  | [], k, v => [(k, v)]
  | (k0, v0) :: rest, k, v =>
    if k0 = k then (k, v) :: rest else (k0, v0) :: mapAssign rest k v

/-- Go map read `m[k]` (with presence flag). -/
def mapLookup : RowMap → String → Option String
  | [], _ => none
  | (k0, v0) :: rest, k => if k0 = k then some v0 else mapLookup rest k

/-- goproxy.go:43-50, the row-mapping helper, with the `row` map held by value
(the heap-threaded variant below restores Go's map-by-reference view). -/
structure MapStringScan where
  cp : List ScanTarget
  row : RowMap
  colCount : Nat
  colNames : List String
deriving DecidableEq, Repr

/-- goproxy.go:85-97: allocate the scan targets (`new(sql.RawBytes)` per
column, i.e. a nil RawBytes buffer each) and an empty row map. -/
def newMapStringScan (columnNames : List String) : MapStringScan :=
  ⟨List.replicate columnNames.length (ScanTarget.rawBytes none), [],
    columnNames.length, columnNames⟩

/-- One cell of `rows.Scan` writing into one destination.  Driver model per
spec section 4.4: a present cell overwrites the RawBytes buffer; a NULL or
absent cell leaves the reused backing buffer untouched, which is exactly why
`Update` must reset the buffer after copying it out. -/
def scanCell : ScanTarget → Option String → ScanTarget
  | ScanTarget.rawBytes _, some v => ScanTarget.rawBytes (some v)
  | ScanTarget.rawBytes b, none => ScanTarget.rawBytes b
  | ScanTarget.other, _ => ScanTarget.other

/-- `rows.Scan(s.cp...)` writing one row's cells into the destinations. -/
def scanDests (cp : List ScanTarget) (cells : List (Option String)) :
    List ScanTarget :=
  List.zipWith scanCell cp cells

/-- database/sql's Scan arity error: destination count differs from the
row's column count. -/
def scanMismatchMsg (cols dests : Nat) : String :=
  "sql: expected " ++ toString cols ++
    " destination arguments in Scan, not " ++ toString dests

/-- goproxy.go:112, the type-assertion failure message of `Update`. -/
def convertErrMsg (i : Nat) (name : String) : String :=
  "Cannot convert index " ++ toString i ++ " column " ++ name ++
    " to type *sql.RawBytes"

/-- The body of `Update`'s for-loop (goproxy.go:107-114): copy each RawBytes
buffer into the row map under its column name, then reset the buffer to nil;
a non-RawBytes destination aborts with `convertErrMsg`.  The loop walks `cp`
and `colNames` in step (the program maintains `colCount = |cp| = |colNames|`);
`i` is the running index used in the error message. -/
def updateCols : Nat → List ScanTarget → List String → RowMap →
    Except String (List ScanTarget × RowMap)
  | _, [], _, row => Except.ok ([], row)
  | _, _ :: _, [], _ => Except.error "runtime error: index out of range"
  | i, ScanTarget.rawBytes rb :: cps, name :: names, row =>
    match updateCols (i + 1) cps names (mapAssign row name (rawBytesStr rb)) with
    | Except.ok (cps2, row2) => Except.ok (ScanTarget.rawBytes none :: cps2, row2)
    | Except.error e => Except.error e
  | i, ScanTarget.other :: _, name :: _, _ => Except.error (convertErrMsg i name)

/-- goproxy.go:102-116: `rows.Scan` into the destinations (erroring first on
an arity mismatch, before any write), then the copy-and-reset loop. -/
def MapStringScan.Update (s : MapStringScan) (cells : List (Option String)) :
    Except String MapStringScan :=
  if cells.length = s.cp.length then
    match updateCols 0 (scanDests s.cp cells) s.colNames s.row with
    | Except.ok (cp2, row2) => Except.ok ⟨cp2, row2, s.colCount, s.colNames⟩
    | Except.error e => Except.error e
  else Except.error (scanMismatchMsg cells.length s.cp.length)

/-- goproxy.go:121-123 (value view; the reference view is `MapStringScanRef.Get`). -/
def MapStringScan.Get (s : MapStringScan) : RowMap := s.row

/-- Go maps are reference values: `MapStringScan.row` is a pointer to a map
object, `Get` hands that pointer out and `append(response, cv)` stores it.
The store makes this explicit: a map reference is an index into `maps`. -/
structure Heap where
  maps : List RowMap
deriving DecidableEq, Repr

/-- Dereference a map pointer. -/
def Heap.get (h : Heap) (r : Nat) : RowMap := h.maps.getD r []

/-- Overwrite the map object a pointer refers to. -/
def Heap.set (h : Heap) (r : Nat) (m : RowMap) : Heap := ⟨h.maps.set r m⟩

/-- `MapStringScan` with its `row` field as a map reference, Go's actual view. -/
structure MapStringScanRef where
  cp : List ScanTarget
  rowRef : Nat
  colCount : Nat
  colNames : List String
deriving DecidableEq, Repr

/-- goproxy.go:85-97 under the reference view: allocate a fresh (empty) map
object in the store and point `rowRef` at it. -/
def newMapStringScanHeap (columnNames : List String) (h : Heap) :
    MapStringScanRef × Heap :=
  (⟨List.replicate columnNames.length (ScanTarget.rawBytes none),
      h.maps.length, columnNames.length, columnNames⟩,
    ⟨h.maps ++ [[]]⟩)

/-- Materialise the referenced map to run the by-value `Update`. -/
def MapStringScanRef.toScan (s : MapStringScanRef) (h : Heap) : MapStringScan :=
  ⟨s.cp, h.get s.rowRef, s.colCount, s.colNames⟩

/-- `Update` under the reference view: the new row contents are written back
into the one map object `rowRef` points to. -/
def MapStringScanRef.Update (s : MapStringScanRef) (h : Heap)
    (cells : List (Option String)) : Except String (MapStringScanRef × Heap) :=
  match (s.toScan h).Update cells with
  | Except.ok s2 =>
    Except.ok (⟨s2.cp, s.rowRef, s.colCount, s.colNames⟩, h.set s.rowRef s2.row)
  | Except.error e => Except.error e

/-- goproxy.go:121-123: `Get` returns `s.row`, i.e. the map POINTER, not a copy. -/
def MapStringScanRef.Get (s : MapStringScanRef) : Nat := s.rowRef

/-- The `for rows.Next()` loop of `processDbTask` (goproxy.go:214-219):
update the scanner from each row and append `rc.Get()` — the map reference —
to the response slice. -/
def queryLoop (s : MapStringScanRef) (h : Heap) (response : List Nat) :
    List (List (Option String)) → Except String (Heap × List Nat)
  | [] => Except.ok (h, response)
  | cells :: rest =>
    match s.Update h cells with
    | Except.error e => Except.error e
    | Except.ok (s2, h2) => queryLoop s2 h2 (response ++ [s2.Get]) rest

/-- goproxy.go:55-58, the response envelope.  Go field `Type` (json tag
`type`) is rendered `rtype`; `Body` is either a marshalled
`[]map[string]string` or a marshalled error value. -/
inductive RBody where
  | rows : List RowMap → RBody
  | errMsg : String → RBody
deriving DecidableEq, Repr

/-- The envelope posted back to the task server. -/
structure JsonResponse where
  rtype : String
  body : RBody
deriving DecidableEq, Repr

/-- How a control path ends: returning normally; parked forever on
`quit <- true` (no receiver for `quit` exists anywhere in the program — main
only ever receives from the ticker); or panicking, which would kill the whole
process. -/
inductive Flow where
  | done
  | blocked
  | panicked : String → Flow
deriving DecidableEq, Repr

/-- Transport-error text used when a POST attempt to the report endpoint
fails (model constant for the `http.Post` error). -/
def postFailText : String := "Post: connection refused"

/-- goproxy.go:176-184, `postJsonResponse`: marshal the envelope, POST it,
read the acknowledgment.  `pf` counts how many consecutive POST attempts the
environment fails before one succeeds.  A failing POST's error is handed to
`fck`, which itself calls `postJsonResponse` with an error envelope — the
source's mutual recursion, measured here by `pf` — and then blocks on `quit`,
so the outer invocation never resumes.  The returned list records every POST
attempt to the report endpoint in order, flagged with transport success. -/
def postJsonResponse : Nat → JsonResponse → List (JsonResponse × Bool) × Flow
  | 0, r => ([(r, true)], Flow.done)
  | Nat.succ k, r =>
    let inner := postJsonResponse k ⟨"error", RBody.errMsg postFailText⟩
    ((r, false) :: inner.1, Flow.blocked)

/-- goproxy.go:257-268, `fck`: a nil error is a no-op; a non-nil error is
POSTed back as an error envelope and then `quit <- true` parks the goroutine
forever (the channel has no receiver). -/
def fck (pf : Nat) : Option String → List (JsonResponse × Bool) × Flow
  | none => ([], Flow.done)
  | some e =>
    let inner := postJsonResponse pf ⟨"error", RBody.errMsg e⟩
    (inner.1, Flow.blocked)

/-- Observable trace of one poll iteration: POST attempts to the report
endpoint, database opens, database closes that actually ran, the value passed
to `SetMaxIdleConns` (if reached), and how the goroutine's control path ends. -/
structure ITrace where
  posts : List (JsonResponse × Bool)
  dbOpens : Nat
  dbCloses : Nat
  maxIdle : Option Nat
  flow : Flow
deriving DecidableEq, Repr

/-- Database-side environment for one task: outcomes of `sql.Open`,
`db.Query`, `rows.Columns`, and the result set itself (a cell is `none` for
SQL NULL). -/
structure DbWorld where
  openErr : Option String
  queryErr : Option String
  columnsErr : Option String
  columns : List String
  rows : List (List (Option String))
deriving DecidableEq, Repr

/-- Environment of one poll iteration: the fetch outcome (transport error or
response body), the JSON decodings the environment would produce, the
database world, and how many report POSTs fail before one succeeds. -/
structure IterWorld where
  fetch : Except String String
  parseTask : Except String Task
  parseDbConfig : Except String DBTaskConfig
  db : DbWorld
  postFails : Nat
deriving Repr

/-- goproxy.go:189-196: a task is a database task iff its type code is
QUERY (1) or EXEC (2). -/
def isDbTask (task : Task) : Bool :=
  task.type == TASK_TYPE_DB_MYSQL_QUERY || task.type == TASK_TYPE_DB_MYSQL_EXEC

/-- goproxy.go:201-226, `processDbTask`: `initDbConnection` (decode the DB
config, `sql.Open`, panicking on an unrecognised type — unreachable from
`checkForTasks`, which guards with `isDbTask`), `SetMaxIdleConns(100)`,
`defer db.Close()`, run the query, map every row, then POST the success
envelope.  Every error goes through `fck`, which posts and then blocks — so
on those paths the goroutine never returns and the deferred `db.Close` never
runs.  The success body is marshalled at POST time by dereferencing each map
pointer stored in `response`. -/
def processDbTask (w : IterWorld) (task : Task) : ITrace :=
  if isDbTask task then
    match w.parseDbConfig with
    | Except.error e => ⟨(fck w.postFails (some e)).1, 0, 0, none, Flow.blocked⟩
    | Except.ok _cfg =>
      match w.db.openErr with
      | some e => ⟨(fck w.postFails (some e)).1, 0, 0, none, Flow.blocked⟩
      | none =>
        match w.db.queryErr with
        | some e => ⟨(fck w.postFails (some e)).1, 1, 0, some 100, Flow.blocked⟩
        | none =>
          match w.db.columnsErr with
          | some e => ⟨(fck w.postFails (some e)).1, 1, 0, some 100, Flow.blocked⟩
          | none =>
            let sh := newMapStringScanHeap w.db.columns ⟨[]⟩
            match queryLoop sh.1 sh.2 [] w.db.rows with
            | Except.error e =>
              ⟨(fck w.postFails (some e)).1, 1, 0, some 100, Flow.blocked⟩
            | Except.ok (hF, resp) =>
              let body := resp.map hF.get
              let pr := postJsonResponse w.postFails ⟨"success", RBody.rows body⟩
              ⟨pr.1, 1, if pr.2 = Flow.done then 1 else 0, some 100, pr.2⟩
  else ⟨[], 0, 0, none, Flow.panicked "Task type not recognised"⟩

/-- Outcome of `getPendingTask` as `checkForTasks` can observe it: a decoded
task with a nil error; the body-`"0"` sentinel, returned as
`(Task{}, errors.New "No Tasks")`; or a transport/decode error that `fck`
already handled (error envelope posted, goroutine parked on `quit`). -/
inductive FetchResult where
  | task : Task → FetchResult
  | noTasks : FetchResult
  | hung : List (JsonResponse × Bool) → FetchResult
deriving DecidableEq, Repr

/-- goproxy.go:128-144, `getPendingTask`: GET the poll address and read the
body (`fck` on either failure), return the `No Tasks` sentinel when the body
is exactly `"0"`, otherwise decode the task envelope (`fck` on failure). -/
def getPendingTask (w : IterWorld) : FetchResult :=
  match w.fetch with
  | Except.error e => FetchResult.hung (fck w.postFails (some e)).1
  | Except.ok body =>
    if body = "0" then FetchResult.noTasks
    else
      match w.parseTask with
      | Except.error e => FetchResult.hung (fck w.postFails (some e)).1
      | Except.ok t => FetchResult.task t

/-- goproxy.go:232-252, the body of the goroutine `checkForTasks` launches:
fetch a task; on a non-nil error print it and return; otherwise process the
task when it is a database task (a non-database task is silently skipped). -/
def runIteration (w : IterWorld) : ITrace :=
  match getPendingTask w with
  | FetchResult.hung ps => ⟨ps, 0, 0, none, Flow.blocked⟩
  | FetchResult.noTasks => ⟨[], 0, 0, none, Flow.done⟩
  | FetchResult.task t =>
    if isDbTask t then processDbTask w t else ⟨[], 0, 0, none, Flow.done⟩

/-- goproxy.go:17-21 (config file contents). -/
structure ConfigFile where
  Url : String
  Interval : Nat
  ApiKey : String
deriving DecidableEq, Repr

/-- goproxy.go:74-80: the config must carry a non-empty API key. -/
def ConfigFile.Validate (c : ConfigFile) : Option String :=
  if c.ApiKey = "" then some "Invalid API Key." else none

/-- How `main` proceeds after validation: entering the polling loop, or
stuck at startup. -/
inductive MainOutcome where
  | polling
  | blockedAtStartup
deriving DecidableEq, Repr

/-- goproxy.go:285-304, `main` up to the scheduler: validate the config; on
error call `fck(err)`, which POSTs an error envelope and then sends on
`quit` — still the nil channel at startup, so the send blocks forever and
the process neither exits nor polls.  On success the polling loop runs
`checkForTasks` immediately and then once per ticker tick, forever. -/
def mainRun (c : ConfigFile) (pf : Nat) :
    MainOutcome × List (JsonResponse × Bool) :=
  match c.Validate with
  | some e => (MainOutcome.blockedAtStartup, (fck pf (some e)).1)
  | none => (MainOutcome.polling, [])

/-- Start times of the iterations `main` launches: `checkForTasks` runs at
time 0 and at every ticker tick, and merely spawns the iteration goroutine
and returns at once — nothing in it consults whether a previous iteration
finished, so one iteration starts per tick unconditionally. -/
def iterationStartTimes (interval ticks : Nat) : List Nat :=
  (List.range ticks).map (fun k => k * interval)

/-- Number of iterations in flight at time `t` when the iteration spawned at
tick `k` runs for `dur k` time units. -/
def inFlightCount (interval ticks : Nat) (dur : Nat → Nat) (t : Nat) : Nat :=
  ((List.range ticks).filter
    (fun k => decide (k * interval ≤ t ∧ t < k * interval + dur k))).length

/-! Helper lemmas about the map and scanner operations. -/

lemma mapLookup_mapAssign_self (m : RowMap) (k v : String) :
    mapLookup (mapAssign m k v) k = some v := by
  induction m with
  | nil => simp [mapAssign, mapLookup]
  | cons p rest ih =>
    by_cases h : p.1 = k
    · simp [mapAssign, mapLookup, h]
    · simp [mapAssign, mapLookup, h, ih]

lemma mapLookup_mapAssign_ne (m : RowMap) (k v k' : String) (h : k' ≠ k) :
    mapLookup (mapAssign m k v) k' = mapLookup m k' := by
  have hk : ¬k = k' := fun hh => h hh.symm
  induction m with
  | nil => simp [mapAssign, mapLookup, hk]
  | cons p rest ih =>
    obtain ⟨k0, v0⟩ := p
    by_cases h0 : k0 = k
    · subst h0
      simp [mapAssign, mapLookup, hk]
    · by_cases h1 : k0 = k'
      · simp [mapAssign, mapLookup, h0, h1, h]
      · simp [mapAssign, mapLookup, h0, h1, ih]

lemma scanCell_isRB (t : ScanTarget) (c : Option String) :
    (scanCell t c).isRB = t.isRB := by
  cases t <;> cases c <;> rfl

lemma scanDests_allRB (cp : List ScanTarget) (cells : List (Option String))
    (hall : ∀ t ∈ cp, t.isRB = true) :
    ∀ t ∈ scanDests cp cells, t.isRB = true := by
  induction cp generalizing cells with
  | nil => intro t ht; simp [scanDests] at ht
  | cons a cps ih =>
    intro t ht
    cases cells with
    | nil => simp [scanDests] at ht
    | cons c cs =>
      have ht' : t = scanCell a c ∨ t ∈ scanDests cps cs := by
        simpa [scanDests, List.zipWith] using ht
      rcases ht' with ht' | ht'
      · rw [ht', scanCell_isRB]
        exact hall a (List.mem_cons_self a cps)
      · exact ih cs (fun u hu => hall u (List.mem_cons_of_mem a hu)) t ht'

lemma length_scanDests (cp : List ScanTarget) (cells : List (Option String))
    (h : cells.length = cp.length) : (scanDests cp cells).length = cp.length := by
  simp [scanDests, List.length_zipWith, h]

lemma scanDests_get? (cp : List ScanTarget) (cells : List (Option String))
    (k : Nat) :
    (scanDests cp cells).get? k =
      (cp.get? k).bind (fun t => (cells.get? k).map (scanCell t)) := by
  induction cp generalizing cells k with
  | nil => simp [scanDests]
  | cons a cps ih =>
    cases cells with
    | nil => simp [scanDests]
    | cons c cs =>
      cases k with
      | zero => simp [scanDests, List.zipWith]
      | succ k => simpa [scanDests, List.zipWith] using ih cs k

/-- Running `Update`'s copy-and-reset loop over all-RawBytes destinations
succeeds, leaves every buffer reset to nil, touches no key outside
`names`, and (for duplicate-free names) maps each column name to the
stringified buffer that was scanned for it. -/
lemma updateCols_rawBytes_ok :
    ∀ (cp : List ScanTarget) (names : List String) (i : Nat) (row : RowMap),
      cp.length = names.length → (∀ t ∈ cp, t.isRB = true) →
      ∃ row2,
        updateCols i cp names row =
          Except.ok (List.replicate cp.length (ScanTarget.rawBytes none), row2) ∧
        (∀ k, k ∉ names → mapLookup row2 k = mapLookup row k) ∧
        (names.Nodup → ∀ j nm, names.get? j = some nm →
          mapLookup row2 nm =
            ((cp.get? j).map (fun t => rawBytesStr (bufOf t)))) := by
  intro cp
  induction cp with
  | nil =>
    intro names i row hlen _
    have hn : names = [] := List.eq_nil_of_length_eq_zero hlen.symm
    subst hn
    exact ⟨row, rfl, fun k _ => rfl, by intro _ j nm hj; simp at hj⟩
  | cons t cps ih =>
    intro names i row hlen hall
    cases names with
    | nil => simp at hlen
    | cons n ns =>
      have ht : t.isRB = true := hall t (List.mem_cons_self t cps)
      cases t with
      | other => simp [ScanTarget.isRB] at ht
      | rawBytes rb =>
        have hlen' : cps.length = ns.length := by
          simpa using hlen
        have hall' : ∀ u ∈ cps, u.isRB = true :=
          fun u hu => hall u (List.mem_cons_of_mem _ hu)
        obtain ⟨row2, hok, hout, hin⟩ :=
          ih ns (i + 1) (mapAssign row n (rawBytesStr rb)) hlen' hall'
        refine ⟨row2, ?_, ?_, ?_⟩
        · simp only [updateCols, hok, List.length_cons, List.replicate_succ]
        · intro k hk
          have hk1 : k ≠ n := fun h => hk (h ▸ List.mem_cons_self n ns)
          have hk2 : k ∉ ns := fun h => hk (List.mem_cons_of_mem n h)
          rw [hout k hk2, mapLookup_mapAssign_ne row n _ k hk1]
        · intro hnd j nm hj
          have hnmem : n ∉ ns := (List.nodup_cons.mp hnd).1
          have hnd' : ns.Nodup := (List.nodup_cons.mp hnd).2
          cases j with
          | zero =>
            simp only [List.get?] at hj
            injection hj with hj'
            subst hj'
            rw [hout n hnmem, mapLookup_mapAssign_self]
            rfl
          | succ j =>
            simp only [List.get?] at hj
            simpa [List.get?] using hin hnd' j nm hj

/-- The copy-and-reset loop aborts with `convertErrMsg` at the first
destination that is not a `*sql.RawBytes`. -/
lemma updateCols_conv_err :
    ∀ (cp : List ScanTarget) (names : List String) (i0 : Nat) (row : RowMap)
      (i : Nat) (nm : String),
      cp.get? i = some ScanTarget.other →
      (∀ k, k < i → ∃ b, cp.get? k = some (ScanTarget.rawBytes b)) →
      names.get? i = some nm →
      updateCols i0 cp names row = Except.error (convertErrMsg (i0 + i) nm) := by
  intro cp
  induction cp with
  | nil => intro names i0 row i nm hi; simp at hi
  | cons t cps ih =>
    intro names i0 row i nm hi hbefore hnm
    cases names with
    | nil =>
      cases i <;> simp at hnm
    | cons n ns =>
      cases i with
      | zero =>
        simp only [List.get?] at hi hnm
        cases hi; cases hnm
        rfl
      | succ i =>
        obtain ⟨b, hb⟩ := hbefore 0 (Nat.succ_pos i)
        simp only [List.get?] at hb
        cases hb
        have hbefore' : ∀ k, k < i → ∃ b, cps.get? k = some (ScanTarget.rawBytes b) := by
          intro k hk
          have := hbefore (k + 1) (Nat.succ_lt_succ hk)
          simpa using this
        have hrec := ih ns (i0 + 1) (mapAssign row n (rawBytesStr b)) i nm
          (by simpa using hi) hbefore' (by simpa using hnm)
        have harith : i0 + 1 + i = i0 + (i + 1) := by omega
        simp only [updateCols, hrec, harith]

lemma get?_some_lt {α : Type} :
    ∀ (l : List α) (i : Nat) (a : α), l.get? i = some a → i < l.length := by
  intro l
  induction l with
  | nil => intro i a h; simp at h
  | cons x xs ih =>
    intro i a h
    cases i with
    | zero => simp
    | succ i =>
      have := ih i a (by simpa [List.get?] using h)
      simpa using Nat.succ_lt_succ this

lemma lt_get?_some {α : Type} :
    ∀ (l : List α) (i : Nat), i < l.length → ∃ a, l.get? i = some a := by
  intro l
  induction l with
  | nil => intro i h; simp at h
  | cons x xs ih =>
    intro i h
    cases i with
    | zero => exact ⟨x, rfl⟩
    | succ i =>
      obtain ⟨a, ha⟩ := ih i (by simpa using Nat.lt_of_succ_lt_succ h)
      exact ⟨a, by simpa [List.get?] using ha⟩

lemma get?_replicate {α : Type} (a : α) (n j : Nat) (h : j < n) :
    (List.replicate n a).get? j = some a := by
  induction n generalizing j with
  | zero => omega
  | succ n ih =>
    cases j with
    | zero => rfl
    | succ j => simpa [List.replicate_succ, List.get?] using ih j (by omega)

/-- A full `Update` step over all-RawBytes destinations: the scan succeeds,
every buffer ends reset to nil, and (for duplicate-free column names) each
column name ends mapped to the stringified buffer that was scanned for it. -/
lemma Update_allRB (s : MapStringScan) (cells : List (Option String))
    (hlen : cells.length = s.cp.length) (hnl : s.colNames.length = s.cp.length)
    (hall : ∀ t ∈ s.cp, t.isRB = true) :
    ∃ s2, s.Update cells = Except.ok s2 ∧
      s2.cp = List.replicate s.cp.length (ScanTarget.rawBytes none) ∧
      s2.colNames = s.colNames ∧ s2.colCount = s.colCount ∧
      (s.colNames.Nodup → ∀ j nm, s.colNames.get? j = some nm →
        mapLookup s2.row nm =
          ((scanDests s.cp cells).get? j).map (fun t => rawBytesStr (bufOf t))) := by
  have hlen2 : (scanDests s.cp cells).length = s.colNames.length := by
    rw [length_scanDests s.cp cells hlen, hnl]
  have hall2 := scanDests_allRB s.cp cells hall
  obtain ⟨row2, hok, _hout, hin⟩ :=
    updateCols_rawBytes_ok (scanDests s.cp cells) s.colNames 0 s.row hlen2 hall2
  refine ⟨⟨List.replicate (scanDests s.cp cells).length (ScanTarget.rawBytes none),
      row2, s.colCount, s.colNames⟩, ?_, ?_, rfl, rfl, ?_⟩
  · simp only [MapStringScan.Update, if_pos hlen, hok]
  · rw [length_scanDests s.cp cells hlen]
  · intro hnd j nm hj
    exact hin hnd j nm hj

/-- The first POST attempt of `postJsonResponse` carries the given envelope;
every later attempt in the same invocation is a recursive error envelope. -/
lemma postJsonResponse_posts_shape (pf : Nat) (r : JsonResponse) :
    ∃ flag rest, (postJsonResponse pf r).1 = (r, flag) :: rest ∧
      rest.all (fun p => p.1.rtype == "error") = true := by
  induction pf generalizing r with
  | zero => exact ⟨true, [], rfl, rfl⟩
  | succ k ih =>
    obtain ⟨flag, rest, hshape, hall⟩ := ih ⟨"error", RBody.errMsg postFailText⟩
    refine ⟨false, (postJsonResponse k ⟨"error", RBody.errMsg postFailText⟩).1,
      rfl, ?_⟩
    rw [hshape]
    simpa using hall

/-- Every POST attempt `fck` makes for a non-nil error is an error envelope. -/
lemma fck_posts_error (pf : Nat) (e : String) :
    ((fck pf (some e)).1).all (fun p => p.1.rtype == "error") = true := by
  obtain ⟨flag, rest, hshape, hall⟩ :=
    postJsonResponse_posts_shape pf ⟨"error", RBody.errMsg e⟩
  simp only [fck]
  rw [hshape]
  simpa using hall

/-- A `postJsonResponse` invocation either returns (all POSTs succeeded) or
parks on `quit`; it can never end any other way. -/
lemma postJsonResponse_flow (pf : Nat) (r : JsonResponse) :
    (postJsonResponse pf r).2 = Flow.done ∨
      (postJsonResponse pf r).2 = Flow.blocked := by
  cases pf with
  | zero => exact Or.inl rfl
  | succ k => exact Or.inr rfl

/-- `processDbTask` (invoked under the `isDbTask` guard) either returns or
parks on `quit`: no code path in it panics or exits the process. -/
lemma processDbTask_flow (w : IterWorld) (t : Task) (h : isDbTask t = true) :
    (processDbTask w t).flow = Flow.done ∨
      (processDbTask w t).flow = Flow.blocked := by
  obtain ⟨f, pt, pc, db, pf⟩ := w
  obtain ⟨oe, qe, ce, cols, rows⟩ := db
  simp only [processDbTask, h, if_true]
  cases pc with
  | error e => exact Or.inr rfl
  | ok cfg =>
    cases oe with
    | some e => exact Or.inr rfl
    | none =>
      cases qe with
      | some e => exact Or.inr rfl
      | none =>
        cases ce with
        | some e => exact Or.inr rfl
        | none =>
          cases hql : queryLoop (newMapStringScanHeap cols ⟨[]⟩).1
              (newMapStringScanHeap cols ⟨[]⟩).2 [] rows with
          | error e => simp [hql]
          | ok pr =>
            obtain ⟨hF, resp⟩ := pr
            simp only [hql]
            exact postJsonResponse_flow pf _

/-- `runIteration` never ends in a panic: its only outcomes are a normal
return or parking forever on `quit`. -/
lemma runIteration_flow (w : IterWorld) :
    (runIteration w).flow = Flow.done ∨ (runIteration w).flow = Flow.blocked := by
  obtain ⟨f, pt, pc, db, pf⟩ := w
  cases f with
  | error e => exact Or.inr rfl
  | ok body =>
    by_cases hb : body = "0"
    · subst hb
      exact Or.inl rfl
    · simp only [runIteration, getPendingTask, if_neg hb]
      cases pt with
      | error e => exact Or.inr rfl
      | ok t =>
        by_cases hd : isDbTask t
        · simp only [hd, if_true]
          exact processDbTask_flow ⟨Except.ok body, Except.ok t, pc, db, pf⟩ t hd
        · simp only [hd, if_false]
          exact Or.inl rfl

/-! Concrete environments used by the claim evaluations. -/

/-- A query task of type code 1. -/
def taskQ : Task := ⟨"cfg-json", 1, "SELECT c FROM t"⟩

/-- A task with an unrecognised type code. -/
def task99 : Task := ⟨"cfg-json", 99, "noop"⟩

/-- A decoded database config. -/
def dbCfg : DBTaskConfig := ⟨"mysql", "user:pass@/db"⟩

/-- A database world that is never reached. -/
def dbQuiet : DbWorld := ⟨none, none, none, [], []⟩

/-- One column, two rows, everything succeeding: the C1 scenario. -/
def wTwoRows : IterWorld :=
  ⟨Except.ok "task-json", Except.ok taskQ, Except.ok dbCfg,
    ⟨none, none, none, ["c"], [[some "a"], [some "b"]]⟩, 0⟩

/-- One column, one row, everything succeeding. -/
def wOneRow : IterWorld :=
  ⟨Except.ok "task-json", Except.ok taskQ, Except.ok dbCfg,
    ⟨none, none, none, ["c"], [[some "a"]]⟩, 0⟩

/-- `db.Query` fails. -/
def wQueryFail : IterWorld :=
  ⟨Except.ok "task-json", Except.ok taskQ, Except.ok dbCfg,
    ⟨none, some "query failed", none, [], []⟩, 0⟩

/-- The fetched task has the unknown type code 99. -/
def wUnknownType : IterWorld :=
  ⟨Except.ok "task-json", Except.ok task99, Except.ok dbCfg, dbQuiet, 0⟩

/-- `http.Get` on the poll address fails. -/
def wGetFail : IterWorld :=
  ⟨Except.error "Get: connection refused", Except.ok taskQ, Except.ok dbCfg,
    dbQuiet, 0⟩

/-- A result row with two cells against a one-column scanner (scan arity
mismatch, the one way `Update` can fail inside `processDbTask`). -/
def wScanMismatch : IterWorld :=
  ⟨Except.ok "task-json", Except.ok taskQ, Except.ok dbCfg,
    ⟨none, none, none, ["c"], [[some "a", some "b"]]⟩, 0⟩

/-! Claim theorems. -/

/-- C1: the claim — that the success body's i-th entry holds the i-th row's
values — is FALSE on the code.  `rc.Get()` returns the one map object the
scanner owns and `append(response, cv)` stores that pointer, so marshalling
at POST time reads the final row contents M times.  Evaluating
`processDbTask` on a 1-column query returning rows `a` then `b`: the posted
success body is `[{c: b}, {c: b}]` — two entries, both holding the LAST
row — while the claim demands `[{c: a}, {c: b}]`, a different list. -/
theorem c1_success_body_repeats_last_row :
    (processDbTask wTwoRows taskQ).posts =
      [(⟨"success", RBody.rows [[("c", "b")], [("c", "b")]]⟩, true)] ∧
    ([[("c", "b")], [("c", "b")]] : List RowMap) ≠ [[("c", "a")], [("c", "b")]] :=
  ⟨rfl, by decide⟩

/-- C3: a poll body of exactly `"0"` is classified as the no-task sentinel:
the iteration makes zero POSTs to the report endpoint (in particular no
error envelope), opens no database connection, and ends normally —
whatever the rest of the environment would have done. -/
theorem c3_sentinel_zero_no_report (pt : Except String Task)
    (pc : Except String DBTaskConfig) (db : DbWorld) (pf : Nat) :
    getPendingTask ⟨Except.ok "0", pt, pc, db, pf⟩ = FetchResult.noTasks ∧
    runIteration ⟨Except.ok "0", pt, pc, db, pf⟩ = ⟨[], 0, 0, none, Flow.done⟩ :=
  ⟨rfl, rfl⟩

/-- Witness for C3: the sentinel iteration under a concrete environment. -/
theorem c3_sentinel_zero_witness :
    getPendingTask ⟨Except.ok "0", Except.ok taskQ, Except.ok dbCfg, dbQuiet, 0⟩ =
      FetchResult.noTasks ∧
    runIteration ⟨Except.ok "0", Except.ok taskQ, Except.ok dbCfg, dbQuiet, 0⟩ =
      ⟨[], 0, 0, none, Flow.done⟩ :=
  c3_sentinel_zero_no_report (Except.ok taskQ) (Except.ok dbCfg) dbQuiet 0

/-- C4: the claim — that an unrecognised type code produces an error-kind
report — is FALSE on the code.  `checkForTasks` only acts when `isDbTask`
holds, so a task of type 99 is silently skipped: NO report of any kind is
posted (the claim's "never opens a database connection" and "never crashes"
parts do hold: the trace opens nothing, and the `initDbConnection` panic is
unreachable behind the `isDbTask` guard). -/
theorem c4_unknown_type_silently_skipped :
    runIteration wUnknownType = ⟨[], 0, 0, none, Flow.done⟩ ∧
    isDbTask task99 = false :=
  ⟨rfl, rfl⟩

/-- C6: the claim — connection released on every failure path — is FALSE on
the code.  On the all-success path the connection is opened once, the idle
pool is capped at 100 and the deferred `db.Close` runs; but when `db.Query`
fails, `fck` posts the error envelope and then parks the goroutine forever
on `quit`, so the function never returns and the deferred `db.Close` never
runs: one connection opened, zero closed. -/
theorem c6_close_skipped_on_failure_path :
    processDbTask wOneRow taskQ =
      ⟨[(⟨"success", RBody.rows [[("c", "a")]]⟩, true)], 1, 1, some 100,
        Flow.done⟩ ∧
    processDbTask wQueryFail taskQ =
      ⟨[(⟨"error", RBody.errMsg "query failed"⟩, true)], 1, 0, some 100,
        Flow.blocked⟩ :=
  ⟨rfl, rfl⟩

/-- C7: the claim — a reporter failure never re-enters the reporter — is
FALSE on the code.  `postJsonResponse` hands its own POST error to `fck`,
and `fck` calls `postJsonResponse` again with an error envelope.  With one
failing POST followed by one succeeding POST, a single reporter invocation
produces TWO POST attempts to the report endpoint: the failed original and
the recursive error report. -/
theorem c7_reporter_failure_recurses :
    postJsonResponse 1 ⟨"success", RBody.rows []⟩ =
      ([(⟨"success", RBody.rows []⟩, false),
        (⟨"error", RBody.errMsg postFailText⟩, true)], Flow.blocked) :=
  rfl

/-- C8: the claim is FALSE on the code in two of its parts, true in the
rest.  True: no per-iteration error ever terminates the process — every
iteration either returns or parks on `quit`, never panicking or exiting, and
the ticker loop in `main` is untouched by either.  False: an iteration whose
error goes through `fck` does NOT end — concretely, a fetch transport error
posts one error envelope and then blocks the goroutine forever; and a
startup configuration failure is NOT fatal — `main`'s `fck` posts an error
envelope and then blocks forever on the still-nil `quit` channel instead of
exiting with a non-zero status. -/
theorem c8_errors_block_instead_of_ending :
    (∀ w : IterWorld,
      (runIteration w).flow = Flow.done ∨ (runIteration w).flow = Flow.blocked) ∧
    runIteration wGetFail =
      ⟨[(⟨"error", RBody.errMsg "Get: connection refused"⟩, true)], 0, 0, none,
        Flow.blocked⟩ ∧
    mainRun ⟨"http://taskserver:8888/", 10, ""⟩ 0 =
      (MainOutcome.blockedAtStartup,
        [(⟨"error", RBody.errMsg "Invalid API Key."⟩, true)]) :=
  ⟨runIteration_flow, rfl, rfl⟩

/-- Witness for C8: the universally quantified part instantiated at a
concrete environment. -/
theorem c8_errors_block_witness :
    (runIteration wOneRow).flow = Flow.done ∨
      (runIteration wOneRow).flow = Flow.blocked :=
  c8_errors_block_instead_of_ending.1 wOneRow

/-- C9: the claim — at most one task execution in flight at any instant — is
FALSE on the code.  `checkForTasks` spawns the iteration goroutine and
returns at once, with no guard, so `main` starts one iteration per tick
unconditionally (`iterationStartTimes`).  With a 1-unit interval and every
iteration running for 3 units, the iterations started at ticks 0 and 1 are
both in flight at time 1: two concurrent executions. -/
theorem c9_tick_overlap_two_in_flight :
    iterationStartTimes 1 2 = [0, 1] ∧
    inFlightCount 1 2 (fun _ => 3) 1 = 2 :=
  ⟨rfl, rfl⟩

/-- C2: confirmed.  `Update` copies each buffer into the row map and resets
it to nil before the next row is scanned (`*rb = nil`, goproxy.go:110).
Hence after scanning row 1 every buffer is nil again, and a row-2 cell that
is NULL/absent — which leaves the reused buffer untouched — maps its column
to the empty string, never to row 1's value. -/
theorem c2_scan_buffer_reset (names : List String)
    (cells1 cells2 : List (Option String)) (j : Nat) (nm : String)
    (hnd : names.Nodup) (h1 : cells1.length = names.length)
    (h2 : cells2.length = names.length) (hnull : cells2.get? j = some none)
    (hnm : names.get? j = some nm) :
    ∃ s1 s2, (newMapStringScan names).Update cells1 = Except.ok s1 ∧
      s1.cp = List.replicate names.length (ScanTarget.rawBytes none) ∧
      s1.Update cells2 = Except.ok s2 ∧
      mapLookup s2.row nm = some "" := by
  have hj : j < names.length := get?_some_lt names j nm hnm
  have hcp0len : (newMapStringScan names).cp.length = names.length := by
    simp [newMapStringScan]
  have hall0 : ∀ t ∈ (newMapStringScan names).cp, t.isRB = true := by
    intro t ht
    have h := List.eq_of_mem_replicate ht
    rw [h]; rfl
  obtain ⟨s1, h1ok, h1cp, h1names, _, _⟩ :=
    Update_allRB (newMapStringScan names) cells1 (by rw [h1, hcp0len])
      (by simp [newMapStringScan]) hall0
  rw [hcp0len] at h1cp
  have h1cplen : s1.cp.length = names.length := by rw [h1cp]; simp
  have hnames1 : s1.colNames = names := h1names
  have hall1 : ∀ t ∈ s1.cp, t.isRB = true := by
    intro t ht
    rw [h1cp] at ht
    have h := List.eq_of_mem_replicate ht
    rw [h]; rfl
  obtain ⟨s2, h2ok, _, _, _, h2in⟩ :=
    Update_allRB s1 cells2 (by rw [h2, h1cplen]) (by rw [hnames1, h1cplen]) hall1
  have hlook := h2in (by rw [hnames1]; exact hnd) j nm
    (by rw [hnames1]; exact hnm)
  rw [scanDests_get?, h1cp, get?_replicate _ _ _ hj, hnull] at hlook
  exact ⟨s1, s2, h1ok, h1cp, h2ok,
    by simpa [scanCell, bufOf, rawBytesStr] using hlook⟩

/-- Witness for C2: a two-column scanner, row 1 = `(x, y)`, row 2 = `(z, NULL)`;
after both updates column `b` maps to `""`, not to `y`. -/
theorem c2_scan_buffer_reset_witness :
    ∃ s1 s2,
      (newMapStringScan ["a", "b"]).Update [some "x", some "y"] = Except.ok s1 ∧
      s1.cp = List.replicate (["a", "b"] : List String).length
        (ScanTarget.rawBytes none) ∧
      s1.Update [some "z", none] = Except.ok s2 ∧
      mapLookup s2.row "b" = some "" :=
  c2_scan_buffer_reset ["a", "b"] [some "x", some "y"] [some "z", none] 1 "b"
    (by decide) rfl rfl rfl rfl

/-- C10: confirmed.  Every destination `newMapStringScan` allocates is a
`*sql.RawBytes`, so the type-assertion branch of `Update` is unreachable on
a fresh scanner: `Update` succeeds whenever the scan arity matches, and the
only error it can return is the scan error itself (arity mismatch). -/
theorem c10_fresh_scanner_error_only_from_scan (names : List String) :
    (∀ t ∈ (newMapStringScan names).cp, t.isRB = true) ∧
    (∀ cells : List (Option String), cells.length = names.length →
      ∃ s2, (newMapStringScan names).Update cells = Except.ok s2) ∧
    (∀ (cells : List (Option String)) (e : String),
      (newMapStringScan names).Update cells = Except.error e →
      cells.length ≠ names.length ∧
        e = scanMismatchMsg cells.length names.length) := by
  have hcp0len : (newMapStringScan names).cp.length = names.length := by
    simp [newMapStringScan]
  have hall0 : ∀ t ∈ (newMapStringScan names).cp, t.isRB = true := by
    intro t ht
    have h := List.eq_of_mem_replicate ht
    rw [h]; rfl
  have hok : ∀ cells : List (Option String), cells.length = names.length →
      ∃ s2, (newMapStringScan names).Update cells = Except.ok s2 := by
    intro cells hc
    obtain ⟨s2, h2, _⟩ := Update_allRB (newMapStringScan names) cells
      (by rw [hc, hcp0len]) (by simp [newMapStringScan]) hall0
    exact ⟨s2, h2⟩
  refine ⟨hall0, hok, ?_⟩
  intro cells e he
  by_cases hc : cells.length = names.length
  · obtain ⟨s2, h2⟩ := hok cells hc
    rw [h2] at he
    cases he
  · refine ⟨hc, ?_⟩
    have hne : ¬cells.length = (newMapStringScan names).cp.length := by
      rw [hcp0len]; exact hc
    simp only [MapStringScan.Update, if_neg hne] at he
    injection he with he'
    rw [hcp0len] at he'
    exact he'.symm

/-- Witness for C10: a fresh one-column scanner updates successfully on a
one-cell row. -/
theorem c10_fresh_scanner_witness :
    ∃ s2, (newMapStringScan ["a"]).Update [some "x"] = Except.ok s2 :=
  (c10_fresh_scanner_error_only_from_scan ["a"]).2.1 [some "x"] rfl

/-- A scanner holding a destination that is not a `*sql.RawBytes` (cannot be
built by `newMapStringScan`; exercises `Update`'s assertion branch). -/
def badScanner : MapStringScan := ⟨[ScanTarget.other], [], 1, ["c"]⟩

/-- C5: confirmed.  When the first non-RawBytes destination sits at index
`i`, `Update` returns exactly the error naming index `i` and column name
`nm` (goproxy.go:112); and inside `processDbTask`, any row whose `Update`
fails aborts the task: the only POSTs in the trace are error envelopes (the
success report is never sent) and the goroutine never completes the task. -/
theorem c5_conversion_error_named_and_task_aborted :
    (∀ (s : MapStringScan) (cells : List (Option String)) (i : Nat)
      (nm : String),
      cells.length = s.cp.length →
      s.cp.get? i = some ScanTarget.other →
      (∀ k, k < i → ∃ b, s.cp.get? k = some (ScanTarget.rawBytes b)) →
      s.colNames.get? i = some nm →
      s.Update cells = Except.error (convertErrMsg i nm)) ∧
    (∀ (w : IterWorld) (t : Task) (cfg : DBTaskConfig) (e : String),
      isDbTask t = true → w.parseDbConfig = Except.ok cfg →
      w.db.openErr = none → w.db.queryErr = none → w.db.columnsErr = none →
      queryLoop (newMapStringScanHeap w.db.columns ⟨[]⟩).1
        (newMapStringScanHeap w.db.columns ⟨[]⟩).2 [] w.db.rows =
        Except.error e →
      (processDbTask w t).posts = (fck w.postFails (some e)).1 ∧
      ((processDbTask w t).posts.all (fun p => p.1.rtype == "error")) = true ∧
      (processDbTask w t).flow = Flow.blocked) := by
  constructor
  · intro s cells i nm hlen hi hbefore hnm
    have hi' : (scanDests s.cp cells).get? i = some ScanTarget.other := by
      have hilt : i < s.cp.length := get?_some_lt s.cp i _ hi
      obtain ⟨c, hc⟩ := lt_get?_some cells i (by rw [hlen]; exact hilt)
      rw [scanDests_get?, hi, hc]
      cases c <;> rfl
    have hbefore' : ∀ k, k < i →
        ∃ b, (scanDests s.cp cells).get? k = some (ScanTarget.rawBytes b) := by
      intro k hk
      obtain ⟨b, hb⟩ := hbefore k hk
      have hklt : k < s.cp.length := get?_some_lt s.cp k _ hb
      obtain ⟨c, hc⟩ := lt_get?_some cells k (by rw [hlen]; exact hklt)
      rw [scanDests_get?, hb, hc]
      cases c with
      | none => exact ⟨b, rfl⟩
      | some v => exact ⟨some v, rfl⟩
    have hupd := updateCols_conv_err (scanDests s.cp cells) s.colNames 0 s.row
      i nm hi' hbefore' hnm
    unfold MapStringScan.Update
    rw [if_pos hlen, hupd]
    simp
  · intro w t cfg e hdb hpc hoe hqe hce hql
    have htr : processDbTask w t =
        ⟨(fck w.postFails (some e)).1, 1, 0, some 100, Flow.blocked⟩ := by
      simp only [processDbTask, hdb, if_true]
      rw [hpc, hoe, hqe, hce, hql]
    refine ⟨?_, ?_, ?_⟩
    · rw [htr]
    · rw [htr]
      exact fck_posts_error w.postFails e
    · rw [htr]

/-- Witness for C5: the non-RawBytes destination of `badScanner` yields the
error naming index 0 and column `c`; and a task whose first row has two
cells against a one-column scanner (a failing `Update`) posts only error
envelopes and never completes. -/
theorem c5_conversion_error_witness :
    badScanner.Update [some "x"] = Except.error (convertErrMsg 0 "c") ∧
    ((processDbTask wScanMismatch taskQ).posts.all
      (fun p => p.1.rtype == "error")) = true ∧
    (processDbTask wScanMismatch taskQ).flow = Flow.blocked := by
  refine ⟨?_, ?_, ?_⟩
  · exact c5_conversion_error_named_and_task_aborted.1 badScanner [some "x"]
      0 "c" rfl rfl (fun k hk => absurd hk (Nat.not_lt_zero k)) rfl
  · exact (c5_conversion_error_named_and_task_aborted.2 wScanMismatch taskQ
      dbCfg (scanMismatchMsg 2 1) rfl rfl rfl rfl rfl rfl).2.1
  · exact (c5_conversion_error_named_and_task_aborted.2 wScanMismatch taskQ
      dbCfg (scanMismatchMsg 2 1) rfl rfl rfl rfl rfl rfl).2.2

end Goproxy
